import Mathlib

/-!
Verification of the resight-nextgen-etl-docs scripts.

Shallow embedding of `scripts/slack-etl-load.py` and
`archive/scripts/etl-analysis-2024.py`:

* the record extractor of `fetch_slack_chunk` (the three regular expressions
  `loaded: (.*?) \(`, `into (.*?):` and `([\w\.]+):\s*(\d+)\s*rows` are
  embedded as executable scanners over `List Char` with Python `re`
  semantics: leftmost match, lazy groups, `.` not matching a newline,
  `findall` resuming after each non-overlapping match);
* the pagination loop of `fetch_slack_chunk`, driven by an oracle listing the
  successive page responses (a page either succeeds with messages, a cursor
  and a `has_more` flag, or raises);
* the 7-day chunking, caching, flattening and sorting of
  `fetch_etl_history`, with the filesystem reduced to the single parquet
  snapshot the script reads and writes;
* the `__main__` entry point (delete the cache, refetch 2024-01-01 to
  2024-12-31);
* the daily grouping and the `get_stats` summary of the archive analysis
  script (the standard-deviation entry needs a square root and is left out;
  no claim mentions it).

Timestamps are modelled as natural numbers of seconds; `epoch2024` is the
epoch second of 2024-01-01 00:00.
-/

/-- Character test for the Python class `[\w\.]` of the table pattern:
word characters plus the literal dot. -/
def wordDotChar (c : Char) : Bool := c.isAlphanum || c = '_' || c = '.'

/-- Numeric value of a matched `\d+` group, as Python `int` reads it. -/
def natOfDigits (ds : List Char) : Nat :=
  ds.foldl (fun n c => n * 10 + (c.toNat - 48)) 0

/-- Single attempt of the pattern `([\w\.]+):\s*(\d+)\s*rows` anchored at the
head of `cs`; on success returns the two groups and the remainder of the text
after the match.  The character after any proper prefix of the maximal
`[\w\.]` run is again a `[\w\.]` character and never `:`, and likewise for
`\s*`/`\d+`, so maximal munch here is exactly the backtracking semantics. -/
def matchTableAt (cs : List Char) : Option ((String × Nat) × List Char) :=
  if (cs.takeWhile wordDotChar).isEmpty then none
  else match cs.dropWhile wordDotChar with
    | ':' :: rest1 =>
      if ((rest1.dropWhile (·.isWhitespace)).takeWhile (·.isDigit)).isEmpty then none
      else
        match ((rest1.dropWhile (·.isWhitespace)).dropWhile (·.isDigit)).dropWhile
            (·.isWhitespace) with
        | 'r' :: 'o' :: 'w' :: 's' :: rest5 =>
          some ((String.mk (cs.takeWhile wordDotChar),
                 natOfDigits ((rest1.dropWhile (·.isWhitespace)).takeWhile (·.isDigit))), rest5)
        | _ => none
    | _ => none

/-- Fuel-indexed scan of `re.findall`: try a match at every position, left to
right, resuming after the end of each match.  Every step consumes at least
one character, so fuel equal to the length of the text never runs out. -/
def findAllTablesAux : Nat → List Char → List (String × Nat)
  | 0, _ => []
  | _, [] => []
  | fuel + 1, c :: cs =>
    match matchTableAt (c :: cs) with
    | some (p, rest) => p :: findAllTablesAux fuel rest
    | none => findAllTablesAux fuel cs

/-- Embedding of `re.findall(r'([\w\.]+):\s*(\d+)\s*rows', text)`. -/
def findAllTables (cs : List Char) : List (String × Nat) :=
  findAllTablesAux cs.length cs

/-- Test whether `pat` is an initial segment of `cs`. -/
def listStartsWith : List Char → List Char → Bool
  | [], _ => true
  | _ :: _, [] => false
  | p :: ps, c :: cs => p = c && listStartsWith ps cs

/-- Lazy group of `PRE(.*?)POST`: the shortest prefix of `cs` containing no
newline (since `.` does not match `\n`) that is immediately followed by
`post`. -/
def lazyCapture (post : List Char) : List Char → Option (List Char)
  | [] => if post.isEmpty then some [] else none
  | c :: cs =>
    if listStartsWith post (c :: cs) then some []
    else if c = '\n' then none
    else (lazyCapture post cs).map (c :: ·)

/-- Embedding of `re.search` for a pattern `pre(.*?)post`: try every start
position left to right and return the lazy group of the leftmost position at
which the whole pattern matches. -/
def searchCapture (pre post : List Char) : List Char → Option (List Char)
  | [] => none
  | c :: cs =>
    if listStartsWith pre (c :: cs) then
      match lazyCapture post ((c :: cs).drop pre.length) with
      | some cap => some cap
      | none => searchCapture pre post cs
    else searchCapture pre post cs

/-- Filename extraction, `re.search(r'loaded: (.*?) \(', text)` with the
default `"Unknown"` when there is no match. -/
def extractFilename (text : String) : String :=
  match searchCapture "loaded: ".toList " (".toList text.toList with
  | some cap => String.mk cap
  | none => "Unknown"

/-- Destination extraction, `re.search(r'into (.*?):', text)` with the
default `"Unknown"` when there is no match. -/
def extractDestination (text : String) : String :=
  match searchCapture "into ".toList ":".toList text.toList with
  | some cap => String.mk cap
  | none => "Unknown"

/-- Slack attachment: the two fields the script reads.  `msg.get` style
access makes both optional; a missing `text` defaults to `""`. -/
structure Attachment where
  pretext : Option String
  text : Option String
deriving DecidableEq

/-- Slack message: its timestamp (seconds) and its optional attachment
list (`"attachments" in msg`). -/
structure Message where
  ts : Nat
  attachments : Option (List Attachment)
deriving DecidableEq

/-- Row appended to `all_rows` for each `(table, row_count)` pair. -/
structure LoadRecord where
  timestamp : Nat
  filename : String
  destination : String
  table : String
  rows : Nat
deriving DecidableEq

/-- Records contributed by one attachment whose pretext matched: one per
`(table, row_count)` pair, all with the extracted filename and destination
and the parent timestamp. -/
def recordsOfAttachment (ts : Nat) (att : Attachment) : List LoadRecord :=
  (findAllTables (att.text.getD "").toList).map (fun p =>
    { timestamp := ts
      filename := extractFilename (att.text.getD "")
      destination := extractDestination (att.text.getD "")
      table := p.1
      rows := p.2 })

/-- Message-processing body of the pagination loop: every attachment whose
pretext equals `"ETL Notification"` appends its records in order. -/
def processMessage (msg : Message) : List LoadRecord :=
  match msg.attachments with
  | none => []
  | some atts =>
    atts.foldl (fun acc att =>
      if att.pretext = some "ETL Notification" then acc ++ recordsOfAttachment msg.ts att
      else acc) []

/-- One response of `conversations_history`: messages, continuation cursor
and `has_more` flag. -/
structure SlackPage where
  messages : List Message
  next_cursor : Option String
  has_more : Bool
deriving DecidableEq

/-- Outcome of one paginated request: a page, or a raised exception. -/
inductive PageResult where
  | ok : SlackPage → PageResult
  | err : PageResult
deriving DecidableEq

/-- Python truthiness of the cursor (`None` and `""` are falsy). -/
def cursorTruthy : Option String → Bool
  | none => false
  | some s => !s.isEmpty

/-- Records extracted from all messages of one page. -/
def pageRecords (p : SlackPage) : List LoadRecord :=
  p.messages.flatMap processMessage

/-- Pagination loop of `fetch_slack_chunk`, consuming the oracle of page
responses in order: an exception stops the loop and keeps the accumulated
rows; a page is processed and the loop continues exactly when the cursor is
truthy and `has_more` is set. -/
def fetchSlackChunkAux : List PageResult → List LoadRecord → List LoadRecord
  | [], acc => acc
  | .err :: _, acc => acc
  | .ok p :: rest, acc =>
    if cursorTruthy p.next_cursor && p.has_more then
      fetchSlackChunkAux rest (acc ++ pageRecords p)
    else acc ++ pageRecords p

/-- Records returned by `fetch_slack_chunk` for one time window whose page
responses are `pages`. -/
def fetchSlackChunk (pages : List PageResult) : List LoadRecord :=
  fetchSlackChunkAux pages []

/-- Chunk step `timedelta(days=7)` in seconds. -/
def sevenDays : Nat := 7 * 86400

/-- Window list built by the chunking loop of `fetch_etl_history`:
`while chunk_start < end_time` append `(chunk_start, min (chunk_start + 7d)
end_time)` and continue from the window's end. -/
def timeChunks (s e : Nat) : List (Nat × Nat) :=
  if h : s < e then (s, min (s + sevenDays) e) :: timeChunks (min (s + sevenDays) e) e
  else []
termination_by e - s
decreasing_by
  have hs : 0 < sevenDays := by decide
  omega

/-- Polars `df.sort('timestamp')`. -/
def sortRecords (l : List LoadRecord) : List LoadRecord :=
  l.mergeSort (fun a b => decide (a.timestamp ≤ b.timestamp))

/-- Filesystem as seen by the script: the single parquet snapshot. -/
structure FileSystem where
  cache : Option (List LoadRecord)
deriving DecidableEq

/-- Embedding of `df.write_parquet(cache_file)`: overwrite the snapshot. -/
def writeParquet (fs : FileSystem) (df : List LoadRecord) : FileSystem :=
  { cache := some df }

/-- Embedding of the cache read: the snapshot contents when the file
exists. -/
def readCache (fs : FileSystem) : Option (List LoadRecord) :=
  fs.cache

/-- Embedding of `fetch_etl_history`: return the cached snapshot when it
exists; otherwise fetch every 7-day chunk of `[startTime, endTime)` (the
oracle `net` gives each window's page responses), flatten, and either report
absence on an empty result or sort, cache and return the data. -/
def fetchEtlHistory (fs : FileSystem) (net : Nat × Nat → List PageResult)
    (startTime endTime : Nat) : Option (List LoadRecord) × FileSystem :=
  match fs.cache with
  | some df => (some df, fs)
  | none =>
    if (((timeChunks startTime endTime).map (fun c => fetchSlackChunk (net c))).flatten).isEmpty
    then (none, fs)
    else
      (some (sortRecords (((timeChunks startTime endTime).map
          (fun c => fetchSlackChunk (net c))).flatten)),
       writeParquet fs (sortRecords (((timeChunks startTime endTime).map
          (fun c => fetchSlackChunk (net c))).flatten)))

/-- Epoch second of 2024-01-01 00:00. -/
def epoch2024 : Nat := 1704067200

/-- Month lengths of the leap year 2024. -/
def monthDays2024 : List Nat := [31, 29, 31, 30, 31, 30, 31, 31, 30, 31, 30, 31]

/-- Embedding of `datetime.strptime('2024-MM-DD', '%Y-%m-%d').timestamp()`:
midnight of the given 2024 day. -/
def strptimeDay (m d : Nat) : Nat :=
  epoch2024 + ((monthDays2024.take (m - 1)).sum + (d - 1)) * 86400

/-- First epoch second of 2025: the year 2024 is `[epoch2024, endOfYear2024)`. -/
def endOfYear2024 : Nat := epoch2024 + 366 * 86400

/-- Embedding of the `__main__` block of the load script: delete any existing
cache file, then fetch with `start_date = '2024-01-01'` and
`end_date = '2024-12-31'`. -/
def mainEntry (fs : FileSystem) (net : Nat × Nat → List PageResult) :
    Option (List LoadRecord) × FileSystem :=
  fetchEtlHistory { cache := none } net (strptimeDay 1 1) (strptimeDay 12 31)

/-- Ascending sort of a numeric series, as numpy's order statistics use. -/
def sortNat (l : List Nat) : List Nat :=
  l.insertionSort (· ≤ ·)

/-- Embedding of `np.median`: middle element of the sorted data for odd
length, mean of the two middle elements for even length. -/
def npMedian (l : List Nat) : ℚ :=
  if (sortNat l).length % 2 = 1 then ((sortNat l).getD ((sortNat l).length / 2) 0 : ℚ)
  else (((sortNat l).getD ((sortNat l).length / 2 - 1) 0 : ℚ) +
        ((sortNat l).getD ((sortNat l).length / 2) 0 : ℚ)) / 2

/-- Embedding of `np.percentile(data, p)` with the default linear
interpolation between closest ranks. -/
def npPercentile (l : List Nat) (p : ℚ) : ℚ :=
  (((sortNat l).getD (((((sortNat l).length : ℚ) - 1) * p / 100).floor.toNat) 0 : ℚ)) +
    ((((sortNat l).length : ℚ) - 1) * p / 100 -
      (((((sortNat l).length : ℚ) - 1) * p / 100).floor.toNat : ℚ)) *
    (((sortNat l).getD (min ((((((sortNat l).length : ℚ) - 1) * p / 100).floor.toNat) + 1)
        ((sortNat l).length - 1)) 0 : ℚ) -
     ((sortNat l).getD (((((sortNat l).length : ℚ) - 1) * p / 100).floor.toNat) 0 : ℚ))

/-- Minimum of a polars series. -/
def seriesMin (l : List Nat) : Nat :=
  match l with
  | [] => 0
  | x :: xs => xs.foldl Nat.min x

/-- Maximum of a polars series. -/
def seriesMax (l : List Nat) : Nat :=
  match l with
  | [] => 0
  | x :: xs => xs.foldl Nat.max x

/-- Arithmetic mean of a polars series. -/
def seriesMean (l : List Nat) : ℚ :=
  (l.sum : ℚ) / (l.length : ℚ)

/-- Summary dictionary built by `get_stats` (the `sd` entry involves a square
root and is not embedded; no claim concerns it). -/
structure Favstats where
  min : Nat
  q1 : ℚ
  median : ℚ
  q3 : ℚ
  max : Nat
  mean : ℚ
  n : Nat
  missing : Nat
deriving DecidableEq

/-- Embedding of `get_stats` for a column of daily counts: such a column is
built by counting rows, so it holds no nulls and `null_count` is zero. -/
def getStats (data : List Nat) : Favstats :=
  { min := seriesMin data
    q1 := npPercentile data 25
    median := npMedian data
    q3 := npPercentile data 75
    max := seriesMax data
    mean := seriesMean data
    n := data.length
    missing := 0 }

/-- Calendar day of a record, `pl.col('timestamp').dt.date()`. -/
def recordDay (r : LoadRecord) : Nat := r.timestamp / 86400

/-- Distinct keys of a group-by, in first-occurrence order. -/
def distinctDays (l : List Nat) : List Nat :=
  l.foldl (fun acc d => if d ∈ acc then acc else acc ++ [d]) []

/-- The `loads` column of `daily_stats`: per-day record counts. -/
def dailyLoads (records : List LoadRecord) : List Nat :=
  (distinctDays (records.map recordDay)).map
    (fun d => (records.filter (fun r => recordDay r = d)).length)

/-- Record set whose per-day load counts are `[1, 2, 3, 4, 5]`. -/
def c7Records : List LoadRecord :=
  (List.range 5).flatMap (fun d =>
    (List.range (d + 1)).map (fun i =>
      { timestamp := d * 86400 + i, filename := "f", destination := "w",
        table := "t", rows := 10 }))

/-- Sample message whose only attachment lacks the marker pretext. -/
def sampleOtherMsg : Message := ⟨3, some [⟨some "Other", some "t1: 5 rows"⟩]⟩

/-- Sample message whose marker attachment has no `table: N rows` pair. -/
def sampleNoTableMsg : Message := ⟨4, some [⟨some "ETL Notification", some "nothing here"⟩]⟩

/-- Notification text of the spec's worked example. -/
def c2Text : String :=
  "ETL Notification ... loaded: foo.csv (bar) into warehouse: orders: 150 rows, customers: 30 rows"

/-- Message carrying the worked-example text with the marker pretext. -/
def c2Msg : Message := ⟨1704100000, some [⟨some "ETL Notification", some c2Text⟩]⟩

/-- Page producing one record, with a truthy cursor and `has_more` set. -/
def c3SamplePage : SlackPage :=
  ⟨[⟨11, some [⟨some "ETL Notification", some "loaded: a.csv (x) into wh: t1: 5 rows"⟩]⟩],
   some "cur", true⟩

/-- Notification text whose only `table: N rows` match is the destination
token itself. -/
def c10Text : String :=
  "ETL Notification loaded: data.csv (batch) into warehouse: 100 rows"

/-- Message carrying `c10Text` with the marker pretext. -/
def c10Msg : Message := ⟨7, some [⟨some "ETL Notification", some c10Text⟩]⟩

theorem processMessage_eq_flatMap (msg : Message) :
    processMessage msg =
      ((msg.attachments.getD []).filter
        (fun a => decide (a.pretext = some "ETL Notification"))).flatMap
        (recordsOfAttachment msg.ts) := by
  have aux : ∀ (atts : List Attachment) (acc : List LoadRecord),
      atts.foldl (fun acc att =>
        if att.pretext = some "ETL Notification" then acc ++ recordsOfAttachment msg.ts att
        else acc) acc =
      acc ++ (atts.filter
        (fun a => decide (a.pretext = some "ETL Notification"))).flatMap
        (recordsOfAttachment msg.ts) := by
    intro atts
    induction atts with
    | nil => intro acc; simp
    | cons a atts ih =>
      intro acc
      by_cases hp : a.pretext = some "ETL Notification"
      · simp [List.filter_cons, hp, ih, List.append_assoc]
      · simp [List.filter_cons, hp, ih]
  cases hm : msg.attachments with
  | none => simp [processMessage, hm]
  | some atts => simp only [processMessage, hm, aux, List.nil_append, Option.getD_some]

/-- C1: a message contributes records only through attachments whose pretext
is the marker; each matching attachment emits exactly one record per matched
`table: N rows` pair, all sharing the message timestamp and the attachment's
extracted filename and destination; no matching attachment, or matching
attachments without table pairs, contribute zero records. -/
theorem c1_extraction (msg : Message) :
    (processMessage msg =
      ((msg.attachments.getD []).filter
        (fun a => decide (a.pretext = some "ETL Notification"))).flatMap
        (fun a => (findAllTables (a.text.getD "").toList).map (fun p =>
          { timestamp := msg.ts
            filename := extractFilename (a.text.getD "")
            destination := extractDestination (a.text.getD "")
            table := p.1
            rows := p.2 }))) ∧
    ((∀ a ∈ msg.attachments.getD [], a.pretext ≠ some "ETL Notification") →
      processMessage msg = []) ∧
    ((∀ a ∈ msg.attachments.getD [], findAllTables (a.text.getD "").toList = []) →
      processMessage msg = []) ∧
    (∀ r ∈ processMessage msg, r.timestamp = msg.ts) := by
  refine ⟨processMessage_eq_flatMap msg, ?_, ?_, ?_⟩
  · intro hnone
    rw [processMessage_eq_flatMap msg]
    have hfil : (msg.attachments.getD []).filter
        (fun a => decide (a.pretext = some "ETL Notification")) = [] := by
      simp only [List.filter_eq_nil_iff, decide_eq_true_eq]
      exact fun a ha => hnone a ha
    simp [hfil]
  · intro hempty
    rw [processMessage_eq_flatMap msg]
    apply List.flatMap_eq_nil_iff.mpr
    intro a ha
    have hta : findAllTables (a.text.getD "").data = [] :=
      hempty a (List.mem_of_mem_filter ha)
    simp [recordsOfAttachment, hta]
  · intro r hr
    rw [processMessage_eq_flatMap msg] at hr
    obtain ⟨a, _, hr⟩ := List.mem_flatMap.mp hr
    obtain ⟨p, _, rfl⟩ := List.mem_map.mp hr
    rfl

theorem c1_extraction_witness :
    processMessage sampleOtherMsg = [] ∧ processMessage sampleNoTableMsg = [] :=
  ⟨(c1_extraction sampleOtherMsg).2.1 (by decide),
   (c1_extraction sampleNoTableMsg).2.2.1 (by decide)⟩

/-- C2: on the sample notification text, extraction emits exactly the two
records (orders, 150) and (customers, 30), both with filename `foo.csv` and
destination `warehouse`, at the message's timestamp. -/
theorem c2_two_records :
    processMessage c2Msg =
      [⟨1704100000, "foo.csv", "warehouse", "orders", 150⟩,
       ⟨1704100000, "foo.csv", "warehouse", "customers", 30⟩] := by
  decide

/-- C3: when some pagination request after a run of successful pages raises,
the chunk returns exactly the records accumulated from the pages processed
before the error; the pages after the failed request are never consulted. -/
theorem c3_partial_pagination (good : List SlackPage) (rest : List PageResult)
    (h : ∀ p ∈ good, (cursorTruthy p.next_cursor && p.has_more) = true) :
    fetchSlackChunk (good.map PageResult.ok ++ PageResult.err :: rest) =
      good.flatMap pageRecords := by
  have aux : ∀ (gs : List SlackPage) (acc : List LoadRecord),
      (∀ p ∈ gs, (cursorTruthy p.next_cursor && p.has_more) = true) →
      fetchSlackChunkAux (gs.map PageResult.ok ++ PageResult.err :: rest) acc =
        acc ++ gs.flatMap pageRecords := by
    intro gs
    induction gs with
    | nil => intro acc _; simp [fetchSlackChunkAux]
    | cons p gs ih =>
      intro acc hall
      have hp : (cursorTruthy p.next_cursor && p.has_more) = true := hall p (by simp)
      simp only [List.map_cons, List.cons_append, fetchSlackChunkAux, hp, if_true,
        List.append_eq]
      rw [ih _ (fun q hq => hall q (by simp [hq]))]
      simp [List.append_assoc]
  simpa using aux good [] h

theorem c3_partial_pagination_witness :
    fetchSlackChunk (List.map PageResult.ok [c3SamplePage] ++
        PageResult.err :: [PageResult.err]) =
      [c3SamplePage].flatMap pageRecords :=
  c3_partial_pagination [c3SamplePage] [PageResult.err] (by decide)

theorem timeChunks_eq (s e : Nat) :
    timeChunks s e =
      if s < e then (s, min (s + sevenDays) e) :: timeChunks (min (s + sevenDays) e) e
      else [] := by
  rw [timeChunks]
  split <;> rfl

theorem timeChunks_bounds_aux :
    ∀ (n s e : Nat), e - s ≤ n → ∀ c ∈ timeChunks s e, s ≤ c.1 ∧ c.1 < c.2 ∧ c.2 ≤ e := by
  intro n
  induction n with
  | zero =>
    intro s e hle c hc
    rw [timeChunks_eq] at hc
    rw [if_neg (by omega)] at hc
    simp at hc
  | succ n ih =>
    intro s e hle c hc
    rw [timeChunks_eq] at hc
    by_cases h : s < e
    · rw [if_pos h] at hc
      have hsev : 0 < sevenDays := by decide
      rcases List.mem_cons.mp hc with rfl | hc2
      · refine ⟨le_refl s, ?_, ?_⟩ <;> dsimp only <;> omega
      · have hrec := ih (min (s + sevenDays) e) e (by omega) c hc2
        exact ⟨by omega, hrec.2.1, hrec.2.2⟩
    · rw [if_neg h] at hc
      simp at hc

theorem timeChunks_bounds (s e : Nat) :
    ∀ c ∈ timeChunks s e, s ≤ c.1 ∧ c.1 < c.2 ∧ c.2 ≤ e :=
  timeChunks_bounds_aux (e - s) s e (le_refl _)

theorem timeChunks_cover_aux :
    ∀ (n s e t : Nat), e - s ≤ n → s ≤ t → t < e →
      ∃ c ∈ timeChunks s e, c.1 ≤ t ∧ t < c.2 := by
  intro n
  induction n with
  | zero => intro s e t hle h1 h2; omega
  | succ n ih =>
    intro s e t hle h1 h2
    have h : s < e := by omega
    have hsev : 0 < sevenDays := by decide
    rw [timeChunks_eq, if_pos h]
    by_cases ht : t < min (s + sevenDays) e
    · exact ⟨(s, min (s + sevenDays) e), by simp, h1, ht⟩
    · have hmin : min (s + sevenDays) e = s + sevenDays := by omega
      obtain ⟨c, hc, hc1, hc2⟩ :=
        ih (min (s + sevenDays) e) e t (by omega) (by omega) h2
      exact ⟨c, by simp [hc], hc1, hc2⟩

theorem timeChunks_cover (s e t : Nat) (h1 : s ≤ t) (h2 : t < e) :
    ∃ c ∈ timeChunks s e, c.1 ≤ t ∧ t < c.2 :=
  timeChunks_cover_aux (e - s) s e t (le_refl _) h1 h2

theorem timeChunks_pairwise_aux :
    ∀ (n s e : Nat), e - s ≤ n → (timeChunks s e).Pairwise (fun a b => a.2 ≤ b.1) := by
  intro n
  induction n with
  | zero =>
    intro s e hle
    rw [timeChunks_eq, if_neg (by omega)]
    exact List.Pairwise.nil
  | succ n ih =>
    intro s e hle
    rw [timeChunks_eq]
    by_cases h : s < e
    · rw [if_pos h]
      have hsev : 0 < sevenDays := by decide
      refine List.Pairwise.cons ?_ (ih (min (s + sevenDays) e) e (by omega))
      intro b hb
      exact (timeChunks_bounds _ _ b hb).1
    · rw [if_neg h]
      exact List.Pairwise.nil

theorem timeChunks_pairwise (s e : Nat) :
    (timeChunks s e).Pairwise (fun a b => a.2 ≤ b.1) :=
  timeChunks_pairwise_aux (e - s) s e (le_refl _)

theorem timeChunks_head (s e : Nat) (h : s < e) :
    (timeChunks s e).head? = some (s, min (s + sevenDays) e) := by
  rw [timeChunks_eq, if_pos h]
  rfl

theorem timeChunks_chain_aux :
    ∀ (n s e : Nat), e - s ≤ n → (timeChunks s e).Chain' (fun a b => a.2 = b.1) := by
  intro n
  induction n with
  | zero =>
    intro s e hle
    rw [timeChunks_eq, if_neg (by omega)]
    exact List.chain'_nil
  | succ n ih =>
    intro s e hle
    rw [timeChunks_eq]
    by_cases h : s < e
    · rw [if_pos h]
      have hsev : 0 < sevenDays := by decide
      refine List.chain'_cons'.mpr ⟨?_, ih (min (s + sevenDays) e) e (by omega)⟩
      intro b hb
      by_cases hm : min (s + sevenDays) e < e
      · rw [timeChunks_head _ _ hm] at hb
        cases hb
        rfl
      · rw [timeChunks_eq, if_neg hm] at hb
        simp at hb
    · rw [if_neg h]
      exact List.chain'_nil

theorem timeChunks_chain (s e : Nat) :
    (timeChunks s e).Chain' (fun a b => a.2 = b.1) :=
  timeChunks_chain_aux (e - s) s e (le_refl _)

/-- C4: chunking 2024-01-01 to 2024-01-20 yields exactly the three windows
ending at 01-08, 01-15 and 01-20; and for every start < end the produced
windows are contiguous (each window's end is the next window's start),
non-overlapping, and a time point lies in some window exactly when it lies
in the half-open global range. -/
theorem c4_chunk_partition :
    timeChunks (strptimeDay 1 1) (strptimeDay 1 20) =
      [(strptimeDay 1 1, strptimeDay 1 8),
       (strptimeDay 1 8, strptimeDay 1 15),
       (strptimeDay 1 15, strptimeDay 1 20)] ∧
    ∀ s e : Nat, s < e →
      ((timeChunks s e).Chain' (fun a b => a.2 = b.1) ∧
       (timeChunks s e).Pairwise (fun a b => a.2 ≤ b.1) ∧
       ∀ t : Nat, (∃ c ∈ timeChunks s e, c.1 ≤ t ∧ t < c.2) ↔ (s ≤ t ∧ t < e)) := by
  constructor
  · have h1 : strptimeDay 1 1 = 1704067200 := by
      norm_num [strptimeDay, epoch2024, monthDays2024]
    have h8 : strptimeDay 1 8 = 1704672000 := by
      norm_num [strptimeDay, epoch2024, monthDays2024]
    have h15 : strptimeDay 1 15 = 1705276800 := by
      norm_num [strptimeDay, epoch2024, monthDays2024]
    have h20 : strptimeDay 1 20 = 1705708800 := by
      norm_num [strptimeDay, epoch2024, monthDays2024]
    have t1 : timeChunks 1704067200 1705708800 =
        (1704067200, 1704672000) :: timeChunks 1704672000 1705708800 := by
      rw [timeChunks_eq, if_pos (by norm_num)]
      norm_num [sevenDays, Nat.min_def]
    have t2 : timeChunks 1704672000 1705708800 =
        (1704672000, 1705276800) :: timeChunks 1705276800 1705708800 := by
      rw [timeChunks_eq, if_pos (by norm_num)]
      norm_num [sevenDays, Nat.min_def]
    have t3 : timeChunks 1705276800 1705708800 =
        (1705276800, 1705708800) :: timeChunks 1705708800 1705708800 := by
      rw [timeChunks_eq, if_pos (by norm_num)]
      norm_num [sevenDays, Nat.min_def]
    have t4 : timeChunks 1705708800 1705708800 = [] := by
      rw [timeChunks_eq, if_neg (by norm_num)]
    rw [h1, h8, h15, h20, t1, t2, t3, t4]
  · intro s e _
    refine ⟨timeChunks_chain s e, timeChunks_pairwise s e, fun t => ?_⟩
    constructor
    · rintro ⟨c, hc, hc1, hc2⟩
      have hb := timeChunks_bounds s e c hc
      omega
    · rintro ⟨h1, h2⟩
      exact timeChunks_cover s e t h1 h2

theorem c4_chunk_partition_witness :
    (0 : Nat) < 1 ∧
    ((timeChunks 0 1).Chain' (fun a b => a.2 = b.1) ∧
     (timeChunks 0 1).Pairwise (fun a b => a.2 ≤ b.1) ∧
     ∀ t : Nat, (∃ c ∈ timeChunks 0 1, c.1 ≤ t ∧ t < c.2) ↔ (0 ≤ t ∧ t < 1)) :=
  ⟨Nat.zero_lt_one, c4_chunk_partition.2 0 1 Nat.zero_lt_one⟩

/-- C5: whatever order the chunk results arrive in, the merged output of the
scheduler — flatten then sort by timestamp — is sorted non-decreasingly by
timestamp, and it holds the same records as the flattening of the chunk
results in dispatch order. -/
theorem c5_sorted_output (chunkResults completionOrder : List (List LoadRecord))
    (h : completionOrder.Perm chunkResults) :
    List.Sorted (fun a b : LoadRecord => a.timestamp ≤ b.timestamp)
      (sortRecords completionOrder.flatten) ∧
    (sortRecords completionOrder.flatten).Perm chunkResults.flatten := by
  constructor
  · have hs := @List.sorted_mergeSort LoadRecord
      (fun a b : LoadRecord => decide (a.timestamp ≤ b.timestamp))
      (fun a b c hab hbc => by
        simp only [decide_eq_true_eq] at hab hbc ⊢
        omega)
      (fun a b => by
        simp only [Bool.or_eq_true, decide_eq_true_eq]
        omega)
      completionOrder.flatten
    exact hs.imp (fun hab => by simpa using hab)
  · exact (List.mergeSort_perm completionOrder.flatten _).trans h.flatten

theorem c5_sorted_output_witness :
    List.Sorted (fun a b : LoadRecord => a.timestamp ≤ b.timestamp)
      (sortRecords ([[⟨9, "f", "w", "t", 1⟩], [⟨2, "g", "x", "u", 4⟩]]).flatten) ∧
    (sortRecords ([[⟨9, "f", "w", "t", 1⟩], [⟨2, "g", "x", "u", 4⟩]]).flatten).Perm
      ([[⟨2, "g", "x", "u", 4⟩], [⟨9, "f", "w", "t", 1⟩]]).flatten :=
  c5_sorted_output [[⟨2, "g", "x", "u", 4⟩], [⟨9, "f", "w", "t", 1⟩]]
    [[⟨9, "f", "w", "t", 1⟩], [⟨2, "g", "x", "u", 4⟩]] (by decide)

/-- C6: storing a record sequence and loading it back returns exactly the
stored sequence (hence the same set of field tuples), and the fetch pipeline
short-circuits to the snapshot contents, with no state change, whenever the
snapshot exists. -/
theorem c6_cache_roundtrip (records : List LoadRecord) (hne : records ≠ [])
    (fs fs' : FileSystem) (net : Nat × Nat → List PageResult) (s e : Nat)
    (df : List LoadRecord) (hc : fs'.cache = some df) :
    readCache (writeParquet fs records) = some records ∧
    (∀ r : LoadRecord, r ∈ (readCache (writeParquet fs records)).getD [] ↔ r ∈ records) ∧
    fetchEtlHistory fs' net s e = (some df, fs') := by
  refine ⟨rfl, fun r => by simp [readCache, writeParquet], ?_⟩
  cases fs' with
  | mk c =>
    cases hc
    rfl

theorem c6_cache_roundtrip_witness :
    readCache (writeParquet ⟨none⟩ [⟨5, "f", "w", "t", 3⟩]) = some [⟨5, "f", "w", "t", 3⟩] ∧
    (∀ r : LoadRecord,
      r ∈ (readCache (writeParquet ⟨none⟩ [⟨5, "f", "w", "t", 3⟩])).getD [] ↔
        r ∈ [⟨5, "f", "w", "t", 3⟩]) ∧
    fetchEtlHistory ⟨some [⟨5, "f", "w", "t", 3⟩]⟩ (fun _ => []) 0 1 =
      (some [⟨5, "f", "w", "t", 3⟩], ⟨some [⟨5, "f", "w", "t", 3⟩]⟩) :=
  c6_cache_roundtrip [⟨5, "f", "w", "t", 3⟩] (by decide) ⟨none⟩
    ⟨some [⟨5, "f", "w", "t", 3⟩]⟩ (fun _ => []) 0 1 [⟨5, "f", "w", "t", 3⟩] rfl

/-- C7: on a record set whose per-day load counts are `[1, 2, 3, 4, 5]`, the
stats summary for the loads column reports min 1, max 5, median 3, mean 3,
n 5 and zero missing values. -/
theorem c7_favstats :
    dailyLoads c7Records = [1, 2, 3, 4, 5] ∧
    (getStats (dailyLoads c7Records)).min = 1 ∧
    (getStats (dailyLoads c7Records)).max = 5 ∧
    (getStats (dailyLoads c7Records)).median = 3 ∧
    (getStats (dailyLoads c7Records)).mean = 3 ∧
    (getStats (dailyLoads c7Records)).n = 5 ∧
    (getStats (dailyLoads c7Records)).missing = 0 := by
  have hd : dailyLoads c7Records = [1, 2, 3, 4, 5] := by decide
  have hsort : sortNat [1, 2, 3, 4, 5] = [1, 2, 3, 4, 5] := by decide
  refine ⟨hd, by decide, by decide, ?_, ?_, by decide, by decide⟩
  · show npMedian (dailyLoads c7Records) = 3
    rw [hd]
    rw [npMedian, hsort]
    norm_num
  · show seriesMean (dailyLoads c7Records) = 3
    rw [hd, seriesMean]
    norm_num

/-- C8: when the records flattened over all chunks are empty and no snapshot
exists, the fetch pipeline returns the absent-data signal rather than a data
frame, and the returned filesystem still has no snapshot. -/
theorem c8_empty_result (fs : FileSystem) (net : Nat × Nat → List PageResult) (s e : Nat)
    (hc : fs.cache = none)
    (he : ((timeChunks s e).map (fun c => fetchSlackChunk (net c))).flatten = []) :
    fetchEtlHistory fs net s e = (none, fs) ∧
    (fetchEtlHistory fs net s e).2.cache = none := by
  have hmain : fetchEtlHistory fs net s e = (none, fs) := by
    cases fs with
    | mk c =>
      cases hc
      simp [fetchEtlHistory, he]
  exact ⟨hmain, by rw [hmain, hc]⟩

theorem c8_empty_result_witness :
    fetchEtlHistory ⟨none⟩ (fun _ => []) 0 0 = (none, ⟨none⟩) ∧
    (fetchEtlHistory ⟨none⟩ (fun _ => []) 0 0).2.cache = none :=
  c8_empty_result ⟨none⟩ (fun _ => []) 0 0 rfl
    (by rw [timeChunks_eq, if_neg (by norm_num)]; rfl)

/-- C9 counterexample: midnight of 2024-12-31 is an instant of calendar year
2024, yet no chunked window of the entry point's fetch range covers it — the
hardcoded `end_date = '2024-12-31'` is parsed as 2024-12-31 00:00, so the
final day of 2024 is outside every window. -/
theorem c9_missing_final_day :
    (epoch2024 ≤ strptimeDay 12 31 ∧ strptimeDay 12 31 < endOfYear2024) ∧
    ¬ ∃ c ∈ timeChunks (strptimeDay 1 1) (strptimeDay 12 31),
        c.1 ≤ strptimeDay 12 31 ∧ strptimeDay 12 31 < c.2 := by
  constructor
  · norm_num [strptimeDay, epoch2024, endOfYear2024, monthDays2024]
  · rintro ⟨c, hc, h1, h2⟩
    have hb := timeChunks_bounds (strptimeDay 1 1) (strptimeDay 12 31) c hc
    omega

/-- C9 (amended): the entry point always deletes any existing cache before
fetching — its outcome is independent of the pre-existing snapshot — and its
chunked windows cover exactly the instants of `[2024-01-01 00:00,
2024-12-31 00:00)`: every instant of 2024 before the final day, and no
instant of 2024-12-31. -/
theorem c9_entry_range (fs fs' : FileSystem) (net : Nat × Nat → List PageResult) :
    mainEntry fs net =
      fetchEtlHistory ⟨none⟩ net (strptimeDay 1 1) (strptimeDay 12 31) ∧
    mainEntry fs net = mainEntry fs' net ∧
    ∀ t : Nat,
      (∃ c ∈ timeChunks (strptimeDay 1 1) (strptimeDay 12 31), c.1 ≤ t ∧ t < c.2) ↔
        (strptimeDay 1 1 ≤ t ∧ t < strptimeDay 12 31) := by
  refine ⟨rfl, rfl, fun t => ?_⟩
  constructor
  · rintro ⟨c, hc, h1, h2⟩
    have hb := timeChunks_bounds (strptimeDay 1 1) (strptimeDay 12 31) c hc
    omega
  · rintro ⟨h1, h2⟩
    exact timeChunks_cover (strptimeDay 1 1) (strptimeDay 12 31) t h1 h2

/-- C10: a marker attachment whose text announces a destination immediately
followed by a bare `N rows` count — with no separate per-table lines — emits
one record whose table field is the destination token itself, not zero
records. -/
theorem c10_destination_matched_as_table :
    extractDestination c10Text = "warehouse" ∧
    findAllTables c10Text.toList = [("warehouse", 100)] ∧
    processMessage c10Msg =
      [⟨7, "data.csv", "warehouse", "warehouse", 100⟩] := by
  decide
